import Mathlib

/-
Verification of the spacedrive repository's specification against its code.

Part I embeds `getLastSectionOfPath` from
`src/interface/app/$libraryId/location/$id.tsx` (strings as character
lists, JavaScript `split('/')` modelled explicitly).

Part II models the sd-ffmpeg thumbnail pipeline described by the spec.
The crate's Rust sources are not part of this repository snapshot (only
its manifest is), so those definitions are modelled from the spec.
-/

namespace Spacedrive

/-- JavaScript `String.prototype.split` with a one-character separator,
on character lists.  Splitting the empty string yields one empty
segment, so the result is never the empty list. -/
def splitChar (sep : Char) : List Char → List (List Char)
  | [] => [[]]
  | c :: cs =>
    if c = sep then [] :: splitChar sep cs
    else
      match splitChar sep cs with
      | [] => [[c]]
      | r :: rs => (c :: r) :: rs

/-- `path.split(sep)` always yields at least one segment. -/
theorem splitChar_ne_nil (sep : Char) : ∀ l : List Char, splitChar sep l ≠ []
  | [] => by simp [splitChar]
  | c :: cs => by
    by_cases h : c = sep
    · simp [splitChar, h]
    · have ih := splitChar_ne_nil sep cs
      cases hs : splitChar sep cs with
      | nil => exact absurd hs ih
      | cons r rs => simp [splitChar, h, hs]

/-- No segment produced by `splitChar` contains the separator. -/
theorem splitChar_not_mem (sep : Char) :
    ∀ l : List Char, ∀ s ∈ splitChar sep l, sep ∉ s
  | [] => by simp [splitChar]
  | c :: cs => by
    intro s hs
    by_cases h : c = sep
    · rw [splitChar, if_pos h] at hs
      rcases List.mem_cons.mp hs with hs | hs
      · simp [hs]
      · exact splitChar_not_mem sep cs s hs
    · rw [splitChar, if_neg h] at hs
      cases hsplit : splitChar sep cs with
      | nil => exact absurd hsplit (splitChar_ne_nil sep cs)
      | cons r rs =>
        rw [hsplit] at hs
        rcases List.mem_cons.mp hs with hs | hs
        · subst hs
          intro hmem
          rcases List.mem_cons.mp hmem with hc | hr
          · exact h hc.symm
          · exact splitChar_not_mem sep cs r (hsplit ▸ List.mem_cons_self r rs) hr
        · exact splitChar_not_mem sep cs s (hsplit ▸ List.mem_cons_of_mem r hs)

/-- A list without the separator splits into the single segment itself. -/
theorem splitChar_of_not_mem (sep : Char) :
    ∀ l : List Char, sep ∉ l → splitChar sep l = [l]
  | [], _ => rfl
  | c :: cs, h => by
    have hc : ¬c = sep := fun hcs => h (hcs ▸ List.mem_cons_self c cs)
    have hcs : sep ∉ cs := fun hm => h (List.mem_cons_of_mem c hm)
    rw [splitChar, if_neg hc, splitChar_of_not_mem sep cs hcs]

/-- `getLastSectionOfPath` from
`src/interface/app/$libraryId/location/$id.tsx`: strips one trailing
slash if present (`endsWith('/')` / `slice(0, -1)`), splits on `'/'`,
and indexes the last element.  The optional result mirrors the source's
declared return type `string | undefined`, with the possibly
out-of-bounds index access modelled by `List.get?`. -/
def getLastSectionOfPath (path : List Char) : Option (List Char) :=
  let path' := if path.getLast? = some '/' then path.dropLast else path
  let sections := splitChar '/' path'
  sections.get? (sections.length - 1)

/-- A non-empty list's `get?` at index `length - 1` is its last element. -/
theorem get?_length_sub_one :
    ∀ l : List α, l ≠ [] → ∃ a, l.get? (l.length - 1) = some a ∧ a ∈ l
  | [], h => absurd rfl h
  | [a], _ => ⟨a, rfl, List.mem_singleton_self a⟩
  | a :: b :: l, _ => by
    obtain ⟨x, hx, hmem⟩ := get?_length_sub_one (b :: l) (List.cons_ne_nil b l)
    exact ⟨x, by simpa using hx, List.mem_cons_of_mem a hmem⟩

/-- Every value returned by `getLastSectionOfPath` is a `splitChar`
segment, hence contains no slash. -/
theorem getLastSectionOfPath_no_slash {p s : List Char}
    (h : getLastSectionOfPath p = some s) : '/' ∉ s := by
  unfold getLastSectionOfPath at h
  set path' := if p.getLast? = some '/' then p.dropLast else p with hp
  have hmem : s ∈ splitChar '/' path' := List.get?_mem h
  exact splitChar_not_mem '/' path' s hmem

/-- On a slash-free input, `getLastSectionOfPath` is the identity. -/
theorem getLastSectionOfPath_of_no_slash {s : List Char} (h : '/' ∉ s) :
    getLastSectionOfPath s = some s := by
  unfold getLastSectionOfPath
  have hlast : s.getLast? ≠ some '/' := by
    intro hc
    rcases List.mem_getLast?_eq_getLast hc with ⟨hne, heq⟩
    exact h (heq ▸ List.getLast_mem hne)
  simp only [if_neg hlast, splitChar_of_not_mem '/' s h]
  rfl

/-- C9: for every input string, `getLastSectionOfPath` returns a string
and never `undefined`, despite its declared return type
`string | undefined`: the split always yields a non-empty array, so
index `sections.length - 1` is in bounds; in particular, on the inputs
`""` and `"/"` it returns the empty string. -/
theorem c9_getLastSectionOfPath_total :
    (∀ p : List Char, ∃ s, getLastSectionOfPath p = some s) ∧
    getLastSectionOfPath [] = some [] ∧
    getLastSectionOfPath ['/'] = some [] := by
  refine ⟨fun p => ?_, by decide, by decide⟩
  unfold getLastSectionOfPath
  set path' := if p.getLast? = some '/' then p.dropLast else p with hp
  obtain ⟨a, ha, _⟩ :=
    get?_length_sub_one (splitChar '/' path') (splitChar_ne_nil '/' path')
  exact ⟨a, ha⟩

/-- C10: `getLastSectionOfPath` is idempotent: every defined result
contains no `'/'` character, applying the function to its own result
returns it unchanged, and hence composing the function with itself (via
`Option.bind`) agrees with a single application. -/
theorem c10_getLastSectionOfPath_idempotent (p s : List Char)
    (h : getLastSectionOfPath p = some s) :
    '/' ∉ s ∧ getLastSectionOfPath s = some s ∧
      (getLastSectionOfPath p).bind getLastSectionOfPath =
        getLastSectionOfPath p := by
  have hns : '/' ∉ s := getLastSectionOfPath_no_slash h
  have hid : getLastSectionOfPath s = some s :=
    getLastSectionOfPath_of_no_slash hns
  refine ⟨hns, hid, ?_⟩
  rw [h]
  simpa using hid

/-- Closed witness for C10 at the concrete path `"a/b"`. -/
theorem c10_witness :
    ('/' : Char) ∉ ['b'] ∧ getLastSectionOfPath ['b'] = some ['b'] ∧
      (getLastSectionOfPath ['a', '/', 'b']).bind getLastSectionOfPath =
        getLastSectionOfPath ['a', '/', 'b'] :=
  c10_getLastSectionOfPath_idempotent ['a', '/', 'b'] ['b'] (by decide)

/-!
### Part II: the sd-ffmpeg thumbnail pipeline

The repository snapshot contains only the sd-ffmpeg crate's manifest
(`src/unnamed/part_000`), not its Rust sources, so every definition in
this part is modelled from the spec (§§2–7).
-/

/-- Modelled from the spec: the §7 failure taxonomy of the pipeline,
whose Rust sources are missing from the snapshot.  All request-scoped,
never process-fatal. -/
inductive ThumbError
  | IoError
  | ProbeError
  | OpenError
  | DecodeError
  | SeekError
  | FrameUnavailableError
  | UnsupportedFormatError
  | EncodeError
  | TimeoutError
  | CancelledError
  deriving DecidableEq

/-- Modelled from the spec: a stream descriptor of a probed container
(§3 MediaSource): codec kind (video or not), pixel dimensions, and
whether its pixel format has a defined conversion (§4.4). -/
structure StreamDesc where
  isVideo : Bool
  width : Nat
  height : Nat
  supportedFmt : Bool
  deriving DecidableEq

/-- Modelled from the spec: a compressed packet of the demuxed stream —
either malformed (to be skipped under the bounded retry of §4.2) or a
decodable frame with its presentation timestamp. -/
inductive Packet
  | malformed
  | frame (pts : Nat)
  deriving DecidableEq

/-- Modelled from the spec: the observable content of a media file as
the missing native backend exposes it: readability, container
recognition, duration, stream descriptors, the packet sequence, and
where a seek to a given timestamp lands (`none` = `SeekError`,
`some i` = resume decoding from packet index `i`, the nearest
preceding keyframe). -/
structure MediaFile where
  readable : Bool
  containerKnown : Bool
  duration : Nat
  streams : List StreamDesc
  packets : List Packet
  seekIndex : Nat → Option Nat

/-- Modelled from the spec (§3): the immutable probe result — duration
plus the first decodable video stream's parameters. -/
structure MediaSource where
  duration : Nat
  stream : StreamDesc
  deriving DecidableEq

/-- Modelled from the spec (§4.1 Media Prober): fails with `IoError`
when the file cannot be read, with `ProbeError` when the container is
unrecognized or no video stream is present; otherwise returns the
duration and the first video stream. -/
def probe (f : MediaFile) : Except ThumbError MediaSource :=
  if !f.readable then .error .IoError
  else if !f.containerKnown then .error .ProbeError
  else
    match f.streams.find? (·.isVideo) with
    | none => .error .ProbeError
    | some s => .ok ⟨f.duration, s⟩

/-- Modelled from the spec (§3): a decoded frame; only its presentation
timestamp matters to the selector. -/
structure Frame where
  pts : Nat
  deriving DecidableEq

/-- Modelled from the spec (§4.2 Decode Session): repeated
`decode_next_frame` from the seek landing point, skipping malformed
packets and frames before the target, bounded by an explicit
maximum-attempt counter (the fuel).  Returns the result together with
the number of decode attempts actually made. -/
def decodeLoop : List Packet → Nat → Nat → Except ThumbError Frame × Nat
  | _, _, 0 => (.error .DecodeError, 0)
  | [], _, _ + 1 => (.error .DecodeError, 1)
  | .malformed :: rest, target, fuel + 1 =>
      let r := decodeLoop rest target fuel
      (r.1, r.2 + 1)
  | .frame pts :: rest, target, fuel + 1 =>
      if target ≤ pts then (.ok ⟨pts⟩, 1)
      else
        let r := decodeLoop rest target fuel
        (r.1, r.2 + 1)

/-- Modelled from the spec (§4.3, §9): the selector's policy constants —
the timestamp fraction `f` as a rational `fracNum / fracDen`, the
end-of-clip guard `ε`, and the decode attempt bound `N`. -/
structure SelectorConfig where
  fracNum : Nat
  fracDen : Nat
  epsilon : Nat
  maxAttempts : Nat
  deriving DecidableEq

/-- Modelled from the spec (§4.3): the primary seek target
`min(duration × f, duration − ε)` (natural subtraction truncates at
zero for very short clips). -/
def primaryTarget (cfg : SelectorConfig) (duration : Nat) : Nat :=
  min (duration * cfg.fracNum / cfg.fracDen) (duration - cfg.epsilon)

/-- Modelled from the spec (§4.2/§4.3): one tier of the selector —
seek to the target, then decode with the bounded retry. -/
def attemptAt (cfg : SelectorConfig) (file : MediaFile) (target : Nat) :
    Except ThumbError Frame :=
  match file.seekIndex target with
  | none => .error .SeekError
  | some i => (decodeLoop (file.packets.drop i) target cfg.maxAttempts).1

/-- The number of decode attempts one selector tier makes. -/
def attemptCount (cfg : SelectorConfig) (file : MediaFile) (target : Nat) :
    Nat :=
  match file.seekIndex target with
  | none => 0
  | some i => (decodeLoop (file.packets.drop i) target cfg.maxAttempts).2

/-- Modelled from the spec (§4.3 Frame Selector): try the primary
target; on any failure retry exactly once at timestamp 0; if that also
fails, the request fails with `FrameUnavailableError`. -/
def selectFrame (cfg : SelectorConfig) (file : MediaFile) (duration : Nat) :
    Except ThumbError Frame :=
  match attemptAt cfg file (primaryTarget cfg duration) with
  | .ok fr => .ok fr
  | .error _ =>
    match attemptAt cfg file 0 with
    | .ok fr => .ok fr
    | .error _ => .error .FrameUnavailableError

/-- Round-half-up division `num / den` (§4.4: "rounded consistently,
e.g. round-half-up"). -/
def roundHalfUp (num den : Nat) : Nat :=
  (2 * num + den) / (2 * den)

/-- Modelled from the spec (§4.4 Frame Converter): aspect-preserving
fit into a square bounding box of side `maxDim`; a source already
within the box is kept at its native size (no upscaling), otherwise the
longer side is scaled to `maxDim` and the shorter side proportionally
with round-half-up. -/
def scaleDimensions (srcW srcH maxDim : Nat) : Nat × Nat :=
  if srcW ≤ maxDim ∧ srcH ≤ maxDim then (srcW, srcH)
  else if srcH ≤ srcW then (maxDim, roundHalfUp (srcH * maxDim) srcW)
  else (roundHalfUp (srcW * maxDim) srcH, maxDim)

/-- Modelled from the spec (§4.4): conversion fails with
`UnsupportedFormatError` on a pixel format with no defined conversion;
otherwise it yields the scaled output dimensions. -/
def convertFrame (s : StreamDesc) (maxDim : Nat) :
    Except ThumbError (Nat × Nat) :=
  if s.supportedFmt then .ok (scaleDimensions s.width s.height maxDim)
  else .error .UnsupportedFormatError

/-- Modelled from the spec (§4.5 Image Encoder): fails with
`EncodeError` only on a degenerate zero-area frame; otherwise produces
the encoded byte sequence (content abstracted as the dimensions and
quality). -/
def encodeImage (dims : Nat × Nat) (quality : Nat) :
    Except ThumbError (List Nat) :=
  if dims.1 = 0 ∨ dims.2 = 0 then .error .EncodeError
  else .ok [dims.1, dims.2, quality]

/-- Modelled from the spec (§3, §4.2): a Decode Session's native
handle, non-null only between a successful open and teardown;
`close` is teardown. -/
structure DecodeSession where
  handle : Option Nat
  deriving DecidableEq

/-- Modelled from the spec (§4.2): `close()` — idempotent native
teardown, safe to call multiple times. -/
def DecodeSession.close (s : DecodeSession) : DecodeSession :=
  { s with handle := none }

/-- Observable events of one coordinator run: native session lifetime
events, and filesystem operations of the Atomic Writer on the
temporary file and the destination path. -/
inductive Event
  | sessionOpened
  | sessionClosed
  | createTemp
  | writeTemp (bytes : List Nat)
  | removeTemp
  | renameToDest
  deriving DecidableEq

/-- The destination directory's state: content of the temporary file
and of the destination path (`none` = no file). -/
structure FS where
  temp : Option (List Nat)
  dest : Option (List Nat)
  deriving DecidableEq

/-- Filesystem semantics of the events: the rename is atomic — it
moves the whole temporary content to the destination in one step. -/
def applyEvent (fs : FS) : Event → FS
  | .sessionOpened => fs
  | .sessionClosed => fs
  | .createTemp => { fs with temp := some [] }
  | .writeTemp b => { fs with temp := some b }
  | .removeTemp => { fs with temp := none }
  | .renameToDest => { temp := none, dest := fs.temp }

/-- Replay a trace of events against a filesystem state. -/
def runFS (fs : FS) (evs : List Event) : FS :=
  evs.foldl applyEvent fs

/-- I/O outcomes one atomic write can encounter: the temp write fails
after `writtenCount` bytes, cancellation is observed after the bytes
are written but before the rename, or the rename itself fails. -/
structure WriteEnv where
  writeFails : Bool
  writtenCount : Nat
  cancelled : Bool
  renameFails : Bool
  deriving DecidableEq

/-- Modelled from the spec (§4.5 Atomic Writer): write the encoded
bytes to a temporary file in the destination's directory, then
atomically rename into place; on any failure (or cancellation) after
the temporary file is created, remove the temporary file before the
error propagates. -/
def atomicWrite (bytes : List Nat) (env : WriteEnv) :
    Except ThumbError Unit × List Event :=
  if env.writeFails then
    (.error .IoError,
      [.createTemp, .writeTemp (bytes.take env.writtenCount), .removeTemp])
  else if env.cancelled then
    (.error .CancelledError, [.createTemp, .writeTemp bytes, .removeTemp])
  else if env.renameFails then
    (.error .IoError, [.createTemp, .writeTemp bytes, .removeTemp])
  else
    (.ok (), [.createTemp, .writeTemp bytes, .renameToDest])

/-- Modelled from the spec (§3, §6): the caller-supplied request value
(paths abstracted away; the destination is the `dest` slot of `FS`). -/
structure ThumbnailRequest where
  maxDim : Nat
  quality : Nat
  deriving DecidableEq

/-- Modelled from the spec (§3): the typed result — success with the
final dimensions, or exactly one §7 failure variant. -/
inductive ThumbnailResult
  | success (width height : Nat)
  | failure (e : ThumbError)
  deriving DecidableEq

/-- The per-request world one coordinator run executes against: the
source file, whether the native open fails, the cooperative
cancellation checkpoints between stages (§5), and the writer's I/O
outcomes. -/
structure RunEnv where
  file : MediaFile
  openFails : Bool
  cancelAfterProbe : Bool
  cancelAfterDecode : Bool
  write : WriteEnv

/-- Modelled from the spec (§4.6 Pipeline Coordinator, §5): orchestrate
probe → open → select → convert → close → encode → write for one
request, checking cancellation between stages, translating every inner
failure into one `ThumbnailResult` variant, and closing the session on
every return path.  Returns the result and the observable event
trace. -/
def runCoordinator (cfg : SelectorConfig) (req : ThumbnailRequest)
    (env : RunEnv) : ThumbnailResult × List Event :=
  match probe env.file with
  | .error e => (.failure e, [])
  | .ok src =>
    if env.cancelAfterProbe then (.failure .CancelledError, [])
    else if env.openFails then (.failure .OpenError, [])
    else
      match selectFrame cfg env.file src.duration with
      | .error e => (.failure e, [.sessionOpened, .sessionClosed])
      | .ok _ =>
        if env.cancelAfterDecode then
          (.failure .CancelledError, [.sessionOpened, .sessionClosed])
        else
          match convertFrame src.stream req.maxDim with
          | .error e => (.failure e, [.sessionOpened, .sessionClosed])
          | .ok dims =>
            match encodeImage dims req.quality with
            | .error e => (.failure e, [.sessionOpened, .sessionClosed])
            | .ok bytes =>
              match atomicWrite bytes env.write with
              | (.error e, ops) =>
                (.failure e, .sessionOpened :: .sessionClosed :: ops)
              | (.ok _, ops) =>
                (.success dims.1 dims.2,
                  .sessionOpened :: .sessionClosed :: ops)

/-- Modelled from the spec (§5): the bounded worker pool as a counting
admission gate — pending, running and finished request counts. -/
structure PoolState where
  pending : Nat
  running : Nat
  done : Nat
  deriving DecidableEq

/-- Modelled from the spec (§5): one scheduler step — admit a pending
request while the pool has a free slot, otherwise let one running
request finish (each coordinator run is a self-contained unit of work
that completes or fails). -/
def poolStep (size : Nat) (s : PoolState) : PoolState :=
  if s.running < size ∧ 0 < s.pending then
    { pending := s.pending - 1, running := s.running + 1, done := s.done }
  else if 0 < s.running then
    { pending := s.pending, running := s.running - 1, done := s.done + 1 }
  else s

/-- A concrete truncated media file: one video stream, a single
decodable frame at timestamp 0, and seeks succeeding only at 0. -/
def sampleFile : MediaFile where
  readable := true
  containerKnown := true
  duration := 100
  streams := [⟨true, 100, 50, true⟩]
  packets := [.frame 0]
  seekIndex := fun t => if t = 0 then some 0 else none

/-- A concrete audio-only media file (no video stream). -/
def sampleAudioFile : MediaFile where
  readable := true
  containerKnown := true
  duration := 100
  streams := [⟨false, 0, 0, true⟩]
  packets := []
  seekIndex := fun _ => none

/-- Concrete selector policy constants: fraction 1/10, ε = 1, at most
three decode attempts per tier. -/
def sampleCfg : SelectorConfig := ⟨1, 10, 1, 3⟩

/-- A concrete request: 64-pixel bounding box at quality 80. -/
def sampleReq : ThumbnailRequest := ⟨64, 80⟩

/-- A concrete fault-free per-request world over `sampleFile`. -/
def sampleEnv : RunEnv where
  file := sampleFile
  openFails := false
  cancelAfterProbe := false
  cancelAfterDecode := false
  write := ⟨false, 0, false, false⟩

/-- A second fault-free world over the same file, differing from
`sampleEnv` only in an unused write parameter. -/
def sampleEnv2 : RunEnv where
  file := sampleFile
  openFails := false
  cancelAfterProbe := false
  cancelAfterDecode := false
  write := ⟨false, 5, false, false⟩

/-- The decode loop's attempt counter never exceeds its fuel. -/
theorem decodeLoop_attempts_le (pkts : List Packet) (target : Nat) :
    ∀ fuel, (decodeLoop pkts target fuel).2 ≤ fuel := by
  induction pkts with
  | nil =>
    intro fuel
    cases fuel with
    | zero => simp [decodeLoop]
    | succ f => simp [decodeLoop]
  | cons p rest ih =>
    intro fuel
    cases fuel with
    | zero => simp [decodeLoop]
    | succ f =>
      cases p with
      | malformed =>
        simpa [decodeLoop] using Nat.succ_le_succ (ih f)
      | frame pts =>
        by_cases h : target ≤ pts
        · simp [decodeLoop, h]
        · simpa [decodeLoop, h] using Nat.succ_le_succ (ih f)

/-- C5: every internal retry loop of the Decode Session is bounded by
an explicit maximum-attempt counter: the decode loop makes at most
`fuel` attempts on any packet sequence, and a selector tier makes at
most `maxAttempts` decode attempts on any input, including adversarial
or corrupt packet sequences, so decoding terminates on every input. -/
theorem c5_bounded_retry :
    (∀ (pkts : List Packet) (target fuel : Nat),
      (decodeLoop pkts target fuel).2 ≤ fuel) ∧
    (∀ (cfg : SelectorConfig) (file : MediaFile) (target : Nat),
      attemptCount cfg file target ≤ cfg.maxAttempts) := by
  refine ⟨fun pkts target fuel => decodeLoop_attempts_le pkts target fuel,
    fun cfg file target => ?_⟩
  unfold attemptCount
  cases h : file.seekIndex target with
  | none => exact Nat.zero_le _
  | some i => exact decodeLoop_attempts_le _ _ _

/-- One pool step keeps the running count within the pool size. -/
theorem poolStep_running_le (size : Nat) (s : PoolState)
    (h : s.running ≤ size) : (poolStep size s).running ≤ size := by
  unfold poolStep
  split
  · next hc => exact hc.1
  · split
    · exact le_trans (Nat.sub_le _ _) h
    · exact h

/-- Iterating the pool scheduler preserves the running bound. -/
theorem poolIter_running_le (size : Nat) :
    ∀ (k : Nat) (s : PoolState), s.running ≤ size →
      ((poolStep size)^[k] s).running ≤ size := by
  intro k
  induction k with
  | zero => intro s h; simpa using h
  | succ k ih =>
    intro s h
    rw [Function.iterate_succ_apply]
    exact ih _ (poolStep_running_le size s h)

/-- With at least one worker, the scheduler drains every request:
after enough steps, nothing is pending or running and everything is
done. -/
theorem poolStep_drain (size : Nat) (hs : 1 ≤ size) :
    ∀ (m : Nat) (s : PoolState), 2 * s.pending + s.running ≤ m →
      (poolStep size)^[m] s =
        ⟨0, 0, s.pending + s.running + s.done⟩ := by
  intro m
  induction m with
  | zero =>
    intro s h
    obtain ⟨p, r, d⟩ := s
    dsimp only at h
    simp only [Function.iterate_zero, id_eq]
    have hp : p = 0 := by omega
    have hr : r = 0 := by omega
    subst hp; subst hr
    simp
  | succ m ih =>
    intro s h
    rw [Function.iterate_succ_apply]
    obtain ⟨p, r, d⟩ := s
    dsimp only at h
    by_cases h1 : r < size ∧ 0 < p
    · have hstep : poolStep size ⟨p, r, d⟩ = ⟨p - 1, r + 1, d⟩ := by
        unfold poolStep; rw [if_pos h1]
      rw [hstep, ih ⟨p - 1, r + 1, d⟩ (by dsimp only; omega)]
      simp only [PoolState.mk.injEq]
      exact ⟨trivial, trivial, by omega⟩
    · by_cases h2 : 0 < r
      · have hstep : poolStep size ⟨p, r, d⟩ = ⟨p, r - 1, d + 1⟩ := by
          unfold poolStep; rw [if_neg h1, if_pos h2]
        rw [hstep, ih ⟨p, r - 1, d + 1⟩ (by dsimp only; omega)]
        simp only [PoolState.mk.injEq]
        exact ⟨trivial, trivial, by omega⟩
      · have hr : r = 0 := by omega
        have hp : p = 0 := by
          by_contra hne
          exact h1 ⟨by omega, by omega⟩
        subst hr; subst hp
        have hstep : poolStep size ⟨0, 0, d⟩ = ⟨0, 0, d⟩ := by
          unfold poolStep
          rw [if_neg (by simp), if_neg (by simp)]
        rw [hstep, ih ⟨0, 0, d⟩ (by simp)]

/-- C8: with a pool of at least one worker, at no point in the
schedule do more sessions run simultaneously than the configured pool
size, and N submitted requests are all drained (completed or failed)
after finitely many steps. -/
theorem c8_pool_bound (N size k : Nat) (hsize : 1 ≤ size) :
    ((poolStep size)^[k] ⟨N, 0, 0⟩).running ≤ size ∧
      (poolStep size)^[2 * N] ⟨N, 0, 0⟩ = ⟨0, 0, N⟩ := by
  refine ⟨poolIter_running_le size k ⟨N, 0, 0⟩ (Nat.zero_le _), ?_⟩
  have := poolStep_drain size hsize (2 * N) ⟨N, 0, 0⟩ (by dsimp only; omega)
  simpa using this

/-- Closed witness for C8: four requests on a pool of two workers. -/
theorem c8_pool_bound_witness :
    ((poolStep 2)^[3] ⟨4, 0, 0⟩).running ≤ 2 ∧
      (poolStep 2)^[8] ⟨4, 0, 0⟩ = ⟨0, 0, 4⟩ :=
  c8_pool_bound 4 2 3 (by decide)

/-- On every failing atomic write, the final state of the destination
directory has neither a temporary file nor a destination file. -/
theorem atomicWrite_error_final (bytes : List Nat) (env : WriteEnv)
    (fs0 : FS) (h0 : fs0.dest = none) (e : ThumbError)
    (he : (atomicWrite bytes env).1 = .error e) :
    (runFS fs0 (atomicWrite bytes env).2).temp = none ∧
      (runFS fs0 (atomicWrite bytes env).2).dest = none := by
  obtain ⟨wf, wc, cc, rf⟩ := env
  cases wf <;> cases cc <;> cases rf <;>
    simp_all [atomicWrite, runFS, applyEvent]

/-- On a successful atomic write, the destination holds exactly the
encoded bytes. -/
theorem atomicWrite_ok_final (bytes : List Nat) (env : WriteEnv)
    (fs0 : FS) (ho : (atomicWrite bytes env).1 = .ok ()) :
    (runFS fs0 (atomicWrite bytes env).2).dest = some bytes := by
  obtain ⟨wf, wc, cc, rf⟩ := env
  cases wf <;> cases cc <;> cases rf <;>
    simp_all [atomicWrite, runFS, applyEvent]

/-- C1: the Atomic Writer never exposes the destination path in a
readable-but-incomplete state.  At every point of every execution —
including the write-failure, rename-failure and cancellation paths —
the destination either does not exist or holds the complete encoded
bytes; on any failure after the temporary file is created, the
temporary file is removed and the destination still does not exist
when the error propagates; only a successful run makes the destination
appear, holding exactly the fully-encoded bytes. -/
theorem c1_atomic_writer (bytes : List Nat) (env : WriteEnv) (fs0 : FS)
    (p : List Event) (e : ThumbError) (h0 : fs0.dest = none)
    (hp : p ∈ ((atomicWrite bytes env).2).inits) :
    ((runFS fs0 p).dest = none ∨ (runFS fs0 p).dest = some bytes) ∧
    ((atomicWrite bytes env).1 = .error e →
      (runFS fs0 (atomicWrite bytes env).2).temp = none ∧
        (runFS fs0 (atomicWrite bytes env).2).dest = none) ∧
    ((atomicWrite bytes env).1 = .ok () →
      (runFS fs0 (atomicWrite bytes env).2).dest = some bytes) := by
  refine ⟨?_, fun he => atomicWrite_error_final bytes env fs0 h0 e he,
    fun ho => atomicWrite_ok_final bytes env fs0 ho⟩
  obtain ⟨wf, wc, cc, rf⟩ := env
  cases wf <;> cases cc <;> cases rf <;>
    · simp [atomicWrite, List.inits] at hp
      rcases hp with hp | hp | hp | hp <;>
        subst hp <;> simp [runFS, applyEvent, h0]

/-- Closed witness for C1: a rename-failure run on bytes `[7]` against
an empty directory, checked on the full trace. -/
theorem c1_atomic_writer_witness :
    ((runFS ⟨none, none⟩
        [Event.createTemp, Event.writeTemp [7], Event.removeTemp]).dest =
          none ∨
      (runFS ⟨none, none⟩
        [Event.createTemp, Event.writeTemp [7], Event.removeTemp]).dest =
          some [7]) ∧
    ((atomicWrite [7] ⟨false, 0, false, true⟩).1 =
        Except.error ThumbError.IoError →
      (runFS ⟨none, none⟩
          (atomicWrite [7] ⟨false, 0, false, true⟩).2).temp = none ∧
        (runFS ⟨none, none⟩
          (atomicWrite [7] ⟨false, 0, false, true⟩).2).dest = none) ∧
    ((atomicWrite [7] ⟨false, 0, false, true⟩).1 = Except.ok () →
      (runFS ⟨none, none⟩
          (atomicWrite [7] ⟨false, 0, false, true⟩).2).dest = some [7]) :=
  c1_atomic_writer [7] ⟨false, 0, false, true⟩ ⟨none, none⟩
    [Event.createTemp, Event.writeTemp [7], Event.removeTemp]
    ThumbError.IoError rfl (by decide)

/-- An element of `xs.inits` counts any value at most as often as `xs`
itself. -/
theorem count_le_of_mem_inits {α : Type} [DecidableEq α] (a : α) :
    ∀ (xs q : List α), q ∈ xs.inits → q.count a ≤ xs.count a := by
  intro xs
  induction xs with
  | nil =>
    intro q hq
    simp [List.inits] at hq
    subst hq
    exact Nat.le_refl _
  | cons x t ih =>
    intro q hq
    simp only [List.inits, List.mem_cons, List.mem_map] at hq
    rcases hq with rfl | ⟨r, hr, rfl⟩
    · exact Nat.zero_le _
    · rw [List.count_cons, List.count_cons]
      exact Nat.add_le_add_right (ih r hr) _

/-- The Atomic Writer's trace contains no session-lifetime events. -/
theorem atomicWrite_count_session (bytes : List Nat) (env : WriteEnv) :
    ((atomicWrite bytes env).2).count Event.sessionOpened = 0 ∧
      ((atomicWrite bytes env).2).count Event.sessionClosed = 0 := by
  obtain ⟨wf, wc, cc, rf⟩ := env
  cases wf <;> cases cc <;> cases rf <;>
    simp [atomicWrite, List.count_eq_zero]

/-- Every coordinator trace is either empty (no session was opened) or
one opened/closed pair followed by writer events only. -/
theorem runCoordinator_shape (cfg : SelectorConfig) (req : ThumbnailRequest)
    (env : RunEnv) :
    (runCoordinator cfg req env).2 = [] ∨
      ∃ ops, (runCoordinator cfg req env).2 =
          Event.sessionOpened :: Event.sessionClosed :: ops ∧
        ops.count Event.sessionOpened = 0 ∧
        ops.count Event.sessionClosed = 0 := by
  unfold runCoordinator
  cases hpr : probe env.file with
  | error e => left; rfl
  | ok src =>
    by_cases hc1 : env.cancelAfterProbe
    · left; simp [hc1]
    by_cases hop : env.openFails
    · left; simp [hc1, hop]
    cases hsel : selectFrame cfg env.file src.duration with
    | error e => right; exact ⟨[], by simp [hc1, hop, hsel], rfl, rfl⟩
    | ok fr =>
      by_cases hc2 : env.cancelAfterDecode
      · right; exact ⟨[], by simp [hc1, hop, hsel, hc2], rfl, rfl⟩
      cases hcv : convertFrame src.stream req.maxDim with
      | error e =>
        right; exact ⟨[], by simp [hc1, hop, hsel, hc2, hcv], rfl, rfl⟩
      | ok dims =>
        cases hen : encodeImage dims req.quality with
        | error e =>
          right; exact ⟨[], by simp [hc1, hop, hsel, hc2, hcv, hen], rfl, rfl⟩
        | ok bytes =>
          right
          refine ⟨(atomicWrite bytes env.write).2, ?_,
            (atomicWrite_count_session bytes env.write).1,
            (atomicWrite_count_session bytes env.write).2⟩
          rcases hw : atomicWrite bytes env.write with ⟨res, ops⟩
          cases res with
          | error e => simp [hc1, hop, hsel, hc2, hcv, hen, hw]
          | ok u => simp [hc1, hop, hsel, hc2, hcv, hen, hw]

/-- C2: scoped session acquisition.  `close` is idempotent teardown
that nulls the native handle; in every coordinator run — success,
typed error, or cancellation — the trace opens at most one session,
closes exactly as many sessions as it opens (no native-resource leak
on any exit path), and at no point of the trace has a close occurred
without a preceding open. -/
theorem c2_session_lifecycle (cfg : SelectorConfig) (req : ThumbnailRequest)
    (env : RunEnv) (p : List Event) (s : DecodeSession)
    (hp : p ∈ ((runCoordinator cfg req env).2).inits) :
    ((runCoordinator cfg req env).2).count Event.sessionOpened =
        ((runCoordinator cfg req env).2).count Event.sessionClosed ∧
    ((runCoordinator cfg req env).2).count Event.sessionOpened ≤ 1 ∧
    p.count Event.sessionClosed ≤ p.count Event.sessionOpened ∧
    s.close.close = s.close ∧ s.close.handle = none := by
  have hclose : s.close.close = s.close ∧ s.close.handle = none :=
    ⟨rfl, rfl⟩
  rcases runCoordinator_shape cfg req env with hsh | ⟨ops, hsh, ho, hc⟩ <;>
    rw [hsh] at hp ⊢
  · simp [List.inits] at hp
    subst hp
    exact ⟨rfl, by simp, by simp, hclose⟩
  · refine ⟨?_, ?_, ?_, hclose⟩
    · simp [List.count_cons, ho, hc]
    · simp [List.count_cons, ho]
    · simp only [List.inits, List.mem_cons, List.mem_map] at hp
      rcases hp with rfl | ⟨q, hq, rfl⟩
      · simp
      rcases hq with rfl | ⟨q2, hq2, rfl⟩
      · simp [List.count_cons]
      · have h1 : q2.count Event.sessionClosed ≤ 0 :=
          hc ▸ count_le_of_mem_inits Event.sessionClosed ops q2 hq2
        simp [List.count_cons]
        omega

/-- Closed witness for C2: the fault-free sample run, checked on the
two-event prefix of its trace. -/
theorem c2_session_lifecycle_witness :
    ((runCoordinator sampleCfg sampleReq sampleEnv).2).count
        Event.sessionOpened =
      ((runCoordinator sampleCfg sampleReq sampleEnv).2).count
        Event.sessionClosed ∧
    ((runCoordinator sampleCfg sampleReq sampleEnv).2).count
        Event.sessionOpened ≤ 1 ∧
    ([Event.sessionOpened, Event.sessionClosed].count
        Event.sessionClosed ≤
      [Event.sessionOpened, Event.sessionClosed].count
        Event.sessionOpened) ∧
    (DecodeSession.mk (some 5)).close.close =
        (DecodeSession.mk (some 5)).close ∧
    (DecodeSession.mk (some 5)).close.handle = none :=
  c2_session_lifecycle sampleCfg sampleReq sampleEnv
    [Event.sessionOpened, Event.sessionClosed] ⟨some 5⟩ (by decide)

/-- Round-half-up division respects upper bounds of the exact
quotient. -/
theorem roundHalfUp_le {num den m : Nat} (hden : 0 < den)
    (h : num ≤ m * den) : roundHalfUp num den ≤ m := by
  unfold roundHalfUp
  rw [← Nat.lt_succ_iff, Nat.div_lt_iff_lt_mul (by omega)]
  have h1 : 2 * num ≤ 2 * (m * den) := Nat.mul_le_mul_left 2 h
  calc 2 * num + den ≤ 2 * (m * den) + den := Nat.add_le_add_right h1 den
    _ < 2 * (m * den) + 2 * den := by omega
    _ = (m + 1) * (2 * den) := by ring

/-- The converter's scaling: both output axes fit the bounding box and
the source (no upscaling); a source inside the box is returned
unchanged; otherwise the longer output side equals the box size. -/
theorem scaleDimensions_spec (srcW srcH maxDim : Nat)
    (hW : 0 < srcW) (hH : 0 < srcH) (hM : 0 < maxDim) :
    (scaleDimensions srcW srcH maxDim).1 ≤ maxDim ∧
    (scaleDimensions srcW srcH maxDim).2 ≤ maxDim ∧
    (scaleDimensions srcW srcH maxDim).1 ≤ srcW ∧
    (scaleDimensions srcW srcH maxDim).2 ≤ srcH ∧
    (srcW ≤ maxDim ∧ srcH ≤ maxDim →
      scaleDimensions srcW srcH maxDim = (srcW, srcH)) ∧
    (¬(srcW ≤ maxDim ∧ srcH ≤ maxDim) →
      max (scaleDimensions srcW srcH maxDim).1
          (scaleDimensions srcW srcH maxDim).2 = maxDim) := by
  unfold scaleDimensions
  by_cases hfit : srcW ≤ maxDim ∧ srcH ≤ maxDim
  · rw [if_pos hfit]
    exact ⟨hfit.1, hfit.2, Nat.le_refl _, Nat.le_refl _, fun _ => rfl,
      fun hc => absurd hfit hc⟩
  · by_cases hwh : srcH ≤ srcW
    · have hWgt : maxDim < srcW := by
        rcases Nat.lt_or_ge maxDim srcW with hlt | hge
        · exact hlt
        · exact absurd ⟨hge, Nat.le_trans hwh hge⟩ hfit
      have h2 : roundHalfUp (srcH * maxDim) srcW ≤ maxDim :=
        roundHalfUp_le hW
          (by rw [Nat.mul_comm maxDim srcW]
              exact Nat.mul_le_mul_right maxDim hwh)
      have h3 : roundHalfUp (srcH * maxDim) srcW ≤ srcH :=
        roundHalfUp_le hW
          (Nat.mul_le_mul_left srcH (Nat.le_of_lt hWgt))
      rw [if_neg hfit, if_pos hwh]
      exact ⟨Nat.le_refl _, h2, Nat.le_of_lt hWgt, h3,
        fun hc => absurd hc hfit, fun _ => Nat.max_eq_left h2⟩
    · have hsw : srcW ≤ srcH := Nat.le_of_lt (Nat.lt_of_not_le hwh)
      have hHgt : maxDim < srcH := by
        rcases Nat.lt_or_ge maxDim srcH with hlt | hge
        · exact hlt
        · exact absurd ⟨Nat.le_trans hsw hge, hge⟩ hfit
      have h2 : roundHalfUp (srcW * maxDim) srcH ≤ maxDim :=
        roundHalfUp_le hH
          (by rw [Nat.mul_comm maxDim srcH]
              exact Nat.mul_le_mul_right maxDim hsw)
      have h3 : roundHalfUp (srcW * maxDim) srcH ≤ srcW :=
        roundHalfUp_le hH
          (Nat.mul_le_mul_left srcW (Nat.le_of_lt hHgt))
      rw [if_neg hfit, if_neg hwh]
      exact ⟨h2, Nat.le_refl _, h3, Nat.le_of_lt hHgt,
        fun hc => absurd hc hfit, fun _ => Nat.max_eq_right h2⟩

/-- A successful probe found the first video stream. -/
theorem probe_ok_stream (f : MediaFile) (src : MediaSource)
    (h : probe f = .ok src) :
    f.streams.find? (·.isVideo) = some src.stream := by
  unfold probe at h
  by_cases hr : f.readable
  · by_cases hk : f.containerKnown
    · rw [if_neg (by simp [hr]), if_neg (by simp [hk])] at h
      cases hf : f.streams.find? (·.isVideo) with
      | none => rw [hf] at h; exact absurd h (by simp)
      | some s =>
        rw [hf] at h
        simp only [Except.ok.injEq] at h
        rw [← h]
    · rw [if_neg (by simp [hr]), if_pos (by simp [hk])] at h
      exact absurd h (by simp)
  · rw [if_pos (by simp [hr])] at h
    exact absurd h (by simp)

/-- A successful conversion's dimensions come from `scaleDimensions`. -/
theorem convertFrame_ok (s : StreamDesc) (maxDim : Nat) (dims : Nat × Nat)
    (h : convertFrame s maxDim = .ok dims) :
    dims = scaleDimensions s.width s.height maxDim := by
  unfold convertFrame at h
  by_cases hs : s.supportedFmt
  · rw [if_pos hs] at h
    simp only [Except.ok.injEq] at h
    exact h.symm
  · rw [if_neg hs] at h
    exact absurd h (by simp)

/-- A successful coordinator run reports exactly the converter's scaled
dimensions of the probed video stream. -/
theorem runCoordinator_success_dims (cfg : SelectorConfig)
    (req : ThumbnailRequest) (env : RunEnv) (w h : Nat)
    (hrun : (runCoordinator cfg req env).1 = ThumbnailResult.success w h) :
    ∃ s, env.file.streams.find? (·.isVideo) = some s ∧
      (w, h) = scaleDimensions s.width s.height req.maxDim := by
  unfold runCoordinator at hrun
  cases hpr : probe env.file with
  | error e => rw [hpr] at hrun; exact absurd hrun (by simp)
  | ok src =>
    rw [hpr] at hrun
    by_cases hc1 : env.cancelAfterProbe
    · simp [hc1] at hrun
    by_cases hop : env.openFails
    · simp [hc1, hop] at hrun
    cases hsel : selectFrame cfg env.file src.duration with
    | error e => simp [hc1, hop, hsel] at hrun
    | ok fr =>
      by_cases hc2 : env.cancelAfterDecode
      · simp [hc1, hop, hsel, hc2] at hrun
      cases hcv : convertFrame src.stream req.maxDim with
      | error e => simp [hc1, hop, hsel, hc2, hcv] at hrun
      | ok dims =>
        cases hen : encodeImage dims req.quality with
        | error e => simp [hc1, hop, hsel, hc2, hcv, hen] at hrun
        | ok bytes =>
          rcases hw : atomicWrite bytes env.write with ⟨res, ops⟩
          cases res with
          | error e => simp [hc1, hop, hsel, hc2, hcv, hen, hw] at hrun
          | ok u =>
            simp only [hc1, hop, hsel, hc2, hcv, hen, hw, if_neg,
              Bool.false_eq_true, if_false] at hrun
            refine ⟨src.stream, probe_ok_stream env.file src hpr, ?_⟩
            have hd := convertFrame_ok src.stream req.maxDim dims hcv
            have hw' : dims.1 = w ∧ dims.2 = h := by
              cases hrun' : hrun
              exact ⟨rfl, rfl⟩
            rw [← hw'.1, ← hw'.2, ← hd]

/-- C4: for every successful request the output dimensions respect the
requested maximum on both axes, never exceed the source's native
resolution (no upscaling: a source inside the box is emitted at source
size), and when scaling happens the longer output dimension equals the
configured maximum with the shorter side scaled proportionally. -/
theorem c4_output_dimensions (cfg : SelectorConfig) (req : ThumbnailRequest)
    (env : RunEnv) (w h : Nat) (s : StreamDesc)
    (hfind : env.file.streams.find? (·.isVideo) = some s)
    (hW : 0 < s.width) (hH : 0 < s.height) (hM : 0 < req.maxDim)
    (hrun : (runCoordinator cfg req env).1 = ThumbnailResult.success w h) :
    w ≤ req.maxDim ∧ h ≤ req.maxDim ∧ w ≤ s.width ∧ h ≤ s.height ∧
    (s.width ≤ req.maxDim ∧ s.height ≤ req.maxDim →
      (w, h) = (s.width, s.height)) ∧
    (¬(s.width ≤ req.maxDim ∧ s.height ≤ req.maxDim) →
      max w h = req.maxDim) := by
  obtain ⟨s', hfind', hdims⟩ :=
    runCoordinator_success_dims cfg req env w h hrun
  rw [hfind] at hfind'
  have hs : s' = s := by
    injection hfind' with hs
    exact hs.symm
  rw [hs] at hdims
  obtain ⟨b1, b2, b3, b4, b5, b6⟩ :=
    scaleDimensions_spec s.width s.height req.maxDim hW hH hM
  have hw : w = (scaleDimensions s.width s.height req.maxDim).1 := by
    rw [← hdims]
  have hh : h = (scaleDimensions s.width s.height req.maxDim).2 := by
    rw [← hdims]
  refine ⟨hw ▸ b1, hh ▸ b2, hw ▸ b3, hh ▸ b4, fun hfit => ?_,
    fun hnfit => ?_⟩
  · rw [hw, hh, ← b5 hfit]
  · rw [hw, hh]
    exact b6 hnfit

/-- Closed witness for C4: the fault-free sample run scales the
100×50 source into the 64-pixel box as 64×32. -/
theorem c4_output_dimensions_witness :
    64 ≤ sampleReq.maxDim ∧ 32 ≤ sampleReq.maxDim ∧
    64 ≤ (StreamDesc.mk true 100 50 true).width ∧
    32 ≤ (StreamDesc.mk true 100 50 true).height ∧
    ((StreamDesc.mk true 100 50 true).width ≤ sampleReq.maxDim ∧
        (StreamDesc.mk true 100 50 true).height ≤ sampleReq.maxDim →
      ((64 : Nat), (32 : Nat)) =
        ((StreamDesc.mk true 100 50 true).width,
          (StreamDesc.mk true 100 50 true).height)) ∧
    (¬((StreamDesc.mk true 100 50 true).width ≤ sampleReq.maxDim ∧
        (StreamDesc.mk true 100 50 true).height ≤ sampleReq.maxDim) →
      max 64 32 = sampleReq.maxDim) :=
  c4_output_dimensions sampleCfg sampleReq sampleEnv 64 32
    ⟨true, 100, 50, true⟩ (by decide) (by decide) (by decide) (by decide)
    (by decide)

/-- C7: the pipeline's output dimensions are deterministic — two runs
with the same request parameters over the same source file that both
succeed report identical width and height, whatever the per-run I/O
environments do otherwise. -/
theorem c7_deterministic_dimensions (cfg : SelectorConfig)
    (req : ThumbnailRequest) (env env' : RunEnv) (w h w' h' : Nat)
    (hfile : env.file = env'.file)
    (h1 : (runCoordinator cfg req env).1 = ThumbnailResult.success w h)
    (h2 : (runCoordinator cfg req env').1 = ThumbnailResult.success w' h') :
    w = w' ∧ h = h' := by
  obtain ⟨s1, hf1, hd1⟩ := runCoordinator_success_dims cfg req env w h h1
  obtain ⟨s2, hf2, hd2⟩ := runCoordinator_success_dims cfg req env' w' h' h2
  rw [hfile] at hf1
  rw [hf1] at hf2
  have hs : s1 = s2 := by injection hf2 with hs
  subst hs
  rw [← hd1] at hd2
  exact ⟨(Prod.mk.injEq _ _ _ _ ▸ hd2).1.symm,
    (Prod.mk.injEq _ _ _ _ ▸ hd2).2.symm⟩

/-- Closed witness for C7: the two fault-free sample runs agree on
64×32. -/
theorem c7_deterministic_dimensions_witness : (64 : Nat) = 64 ∧ (32 : Nat) = 32 :=
  c7_deterministic_dimensions sampleCfg sampleReq sampleEnv sampleEnv2
    64 32 64 32 rfl (by decide) (by decide)

/-- Every failing coordinator run leaves no file at the destination
path. -/
theorem runCoordinator_failure_no_dest (cfg : SelectorConfig)
    (req : ThumbnailRequest) (env : RunEnv) (fs0 : FS) (e : ThumbError)
    (h0 : fs0.dest = none)
    (hrun : (runCoordinator cfg req env).1 = ThumbnailResult.failure e) :
    (runFS fs0 (runCoordinator cfg req env).2).dest = none := by
  unfold runCoordinator at hrun ⊢
  cases hpr : probe env.file with
  | error e2 => simpa [runFS] using h0
  | ok src =>
    by_cases hc1 : env.cancelAfterProbe
    · simpa [hc1, runFS] using h0
    by_cases hop : env.openFails
    · simpa [hc1, hop, runFS] using h0
    cases hsel : selectFrame cfg env.file src.duration with
    | error e2 =>
      simpa [hc1, hop, hsel, runFS, applyEvent] using h0
    | ok fr =>
      by_cases hc2 : env.cancelAfterDecode
      · simpa [hc1, hop, hsel, hc2, runFS, applyEvent] using h0
      cases hcv : convertFrame src.stream req.maxDim with
      | error e2 =>
        simpa [hc1, hop, hsel, hc2, hcv, runFS, applyEvent] using h0
      | ok dims =>
        cases hen : encodeImage dims req.quality with
        | error e2 =>
          simpa [hc1, hop, hsel, hc2, hcv, hen, runFS, applyEvent] using h0
        | ok bytes =>
          rcases hw : atomicWrite bytes env.write with ⟨res, ops⟩
          cases res with
          | error e2 =>
            have hfin := atomicWrite_error_final bytes env.write fs0 h0 e2
              (by rw [hw])
            rw [hw] at hfin
            simpa [hc1, hop, hsel, hc2, hcv, hen, hw, runFS, applyEvent]
              using hfin.2
          | ok u =>
            simp [hpr, hc1, hop, hsel, hc2, hcv, hen, hw] at hrun

/-- C6: every inner-stage error is translated at the Coordinator
boundary into exactly the corresponding `ThumbnailResult` failure
variant (shown here for the probe stage, the first inner stage), no
failing run ever creates a destination file, and an audio-only or
zero-video-stream file fails with `ProbeError` with an empty trace (so
no destination file and no native session either). -/
theorem c6_error_translation (cfg : SelectorConfig) (req : ThumbnailRequest)
    (env : RunEnv) (fs0 : FS) (e : ThumbError) (h0 : fs0.dest = none) :
    ((runCoordinator cfg req env).1 = ThumbnailResult.failure e →
      (runFS fs0 (runCoordinator cfg req env).2).dest = none) ∧
    (probe env.file = .error e →
      (runCoordinator cfg req env).1 = ThumbnailResult.failure e) ∧
    ((∀ s ∈ env.file.streams, s.isVideo = false) →
      env.file.readable = true → env.file.containerKnown = true →
      (runCoordinator cfg req env).1 =
          ThumbnailResult.failure ThumbError.ProbeError ∧
        (runCoordinator cfg req env).2 = []) := by
  refine ⟨fun hrun =>
    runCoordinator_failure_no_dest cfg req env fs0 e h0 hrun,
    fun hpr => ?_, fun hall hr hk => ?_⟩
  · unfold runCoordinator
    rw [hpr]
  · have hfind : env.file.streams.find? (·.isVideo) = none :=
      List.find?_eq_none.mpr (fun x hx => by simp [hall x hx])
    have hpr : probe env.file = .error .ProbeError := by
      unfold probe
      rw [if_neg (by simp [hr]), if_neg (by simp [hk]), hfind]
    constructor
    · unfold runCoordinator
      rw [hpr]
    · unfold runCoordinator
      rw [hpr]

/-- Closed witness for C6 at the audio-only sample file. -/
theorem c6_error_translation_witness :
    ((runCoordinator sampleCfg sampleReq
          ⟨sampleAudioFile, false, false, false,
            ⟨false, 0, false, false⟩⟩).1 =
        ThumbnailResult.failure ThumbError.ProbeError →
      (runFS ⟨none, none⟩
          (runCoordinator sampleCfg sampleReq
            ⟨sampleAudioFile, false, false, false,
              ⟨false, 0, false, false⟩⟩).2).dest = none) ∧
    (probe sampleAudioFile = .error ThumbError.ProbeError →
      (runCoordinator sampleCfg sampleReq
          ⟨sampleAudioFile, false, false, false,
            ⟨false, 0, false, false⟩⟩).1 =
        ThumbnailResult.failure ThumbError.ProbeError) ∧
    ((∀ s ∈ sampleAudioFile.streams, s.isVideo = false) →
      sampleAudioFile.readable = true →
      sampleAudioFile.containerKnown = true →
      (runCoordinator sampleCfg sampleReq
          ⟨sampleAudioFile, false, false, false,
            ⟨false, 0, false, false⟩⟩).1 =
          ThumbnailResult.failure ThumbError.ProbeError ∧
        (runCoordinator sampleCfg sampleReq
          ⟨sampleAudioFile, false, false, false,
            ⟨false, 0, false, false⟩⟩).2 = []) :=
  c6_error_translation sampleCfg sampleReq
    ⟨sampleAudioFile, false, false, false, ⟨false, 0, false, false⟩⟩
    ⟨none, none⟩ ThumbError.ProbeError rfl

/-- C3: the Frame Selector first targets
`min(duration × f, duration − ε)`; a primary-tier success is the
result; on any primary-tier failure it retries exactly once at
timestamp 0, and only when that second tier also fails does the
request fail, with `FrameUnavailableError`.  Consequently a
truncated file whose packet stream starts with a decodable frame (and
whose seek at 0 lands there) succeeds via the timestamp-0 fallback. -/
theorem c3_frame_selector_two_tier (cfg : SelectorConfig)
    (file : MediaFile) (dur : Nat) (e : ThumbError) :
    primaryTarget cfg dur =
        min (dur * cfg.fracNum / cfg.fracDen) (dur - cfg.epsilon) ∧
    (∀ fr, attemptAt cfg file (primaryTarget cfg dur) = .ok fr →
      selectFrame cfg file dur = .ok fr) ∧
    (attemptAt cfg file (primaryTarget cfg dur) = .error e →
      (∀ fr, attemptAt cfg file 0 = .ok fr →
        selectFrame cfg file dur = .ok fr) ∧
      (∀ e2, attemptAt cfg file 0 = .error e2 →
        selectFrame cfg file dur = .error .FrameUnavailableError)) ∧
    (attemptAt cfg file (primaryTarget cfg dur) = .error e →
      file.seekIndex 0 = some 0 → 1 ≤ cfg.maxAttempts →
      ∀ pts rest, file.packets = Packet.frame pts :: rest →
        selectFrame cfg file dur = .ok ⟨pts⟩) := by
  refine ⟨rfl, fun fr hok => ?_, fun herr => ⟨fun fr hok2 => ?_,
    fun e2 he2 => ?_⟩, fun herr hseek hmax pts rest hpk => ?_⟩
  · unfold selectFrame
    rw [hok]
  · unfold selectFrame
    rw [herr, hok2]
  · unfold selectFrame
    rw [herr, he2]
  · have hok0 : attemptAt cfg file 0 = .ok ⟨pts⟩ := by
      unfold attemptAt
      rw [hseek]
      cases hm : cfg.maxAttempts with
      | zero => omega
      | succ m => simp [hm, hpk, decodeLoop]
    unfold selectFrame
    rw [herr, hok0]

/-- Closed witness for C3: on the truncated sample file the primary
tier fails with `SeekError` and the selector succeeds at timestamp 0
with the first frame. -/
theorem c3_frame_selector_two_tier_witness :
    selectFrame sampleCfg sampleFile 100 = .ok ⟨0⟩ :=
  (c3_frame_selector_two_tier sampleCfg sampleFile 100
      ThumbError.SeekError).2.2.2 rfl rfl (by decide)
    0 [] rfl

end Spacedrive
